import Mathlib

/-!
Shallow embedding of `atlite/wind.py` (`extrapolate_wind_speed`).

The Python function works over an `xarray.Dataset`: a mapping from variable
names to labeled multi-dimensional numeric arrays sharing coordinates.  We
model an array's payload as either a time-and-position indexed function or a
position-only indexed function (so that broadcasting of the position-only
`roughness` field across the time dimension is expressed).  Numeric scalars
are abstracted by a field `K`; most theorems instantiate `K` with `ℚ` (for
executable witnesses) or `ℝ`, while `np.log` is an explicit total function
parameter `log : K → K`, matching the fact that the Python code never
inspects the numeric results (NaN/Inf propagate as plain values).

Python exceptions are modelled by `Except PyError`; heights are rationals
(Python `int`s / finite floats), and `int(·)` truncation, string
formatting and `int(·)` parsing are embedded below.
-/

/-- Python exception kinds relevant to `extrapolate_wind_speed`.
`missingDataError` is the exception class named by the specification; the
source code under `src/` never defines or raises it (it raises
`AssertionError`), the constructor exists solely so that the spec's claim
about it can be stated. -/
inductive PyError where
  | assertionError (msg : String)
  | keyError (key : String)
  | valueError (msg : String)
  | missingDataError (msg : String)
deriving DecidableEq, Repr

/-- True exactly on the spec's `MissingDataError` exception class. -/
def PyError.isMissingData : PyError → Bool
  | .missingDataError _ => true
  | _ => false

/-- Array payload: `timePos f` is a variable indexed over (time, position),
`pos f` is a variable indexed over position only (like `roughness`). -/
inductive VarData (K : Type) where
  | timePos (f : ℕ → ℕ → K)
  | pos (f : ℕ → K)

/-- Element-wise unary operation (e.g. `np.log`). -/
def VarData.map {K : Type} (g : K → K) : VarData K → VarData K
  | .timePos f => .timePos (fun t p => g (f t p))
  | .pos f => .pos (fun p => g (f p))

/-- Element-wise binary operation with xarray broadcasting: a position-only
array is broadcast across the time dimension of the other operand. -/
def VarData.broadcast2 {K : Type} (op : K → K → K) : VarData K → VarData K → VarData K
  | .timePos f, .timePos g => .timePos (fun t p => op (f t p) (g t p))
  | .timePos f, .pos g => .timePos (fun t p => op (f t p) (g p))
  | .pos f, .timePos g => .timePos (fun t p => op (f p) (g t p))
  | .pos f, .pos g => .pos (fun p => op (f p) (g p))

/-- The value of an array at grid point `(t, p)`; a position-only array is
constant in time. -/
def VarData.valueAt {K : Type} : VarData K → ℕ → ℕ → K
  | .timePos f, t, p => f t p
  | .pos f, _, p => f p

/-- An `xarray.DataArray`: a name, the numeric payload, and the `attrs`
metadata dictionary (an ordered string-to-string mapping). -/
structure DataArray (K : Type) where
  name : String
  data : VarData K
  attrs : List (String × String)

/-- An `xarray.Dataset`: an ordered collection of named arrays.  In xarray,
`ds[k].name == k`, so the lookup key is the array's `name` field, and
`for s in ds` iterates names in insertion order. -/
structure Dataset (K : Type) where
  vars : List (DataArray K)

/-- `ds[name]` lookup (first array with the given name), `none` models the
`KeyError` case. -/
def Dataset.find? {K : Type} (ds : Dataset K) (n : String) : Option (DataArray K) :=
  ds.vars.find? (fun a => a.name == n)

/-- `for s in ds`: the variable names in order. -/
def Dataset.names {K : Type} (ds : Dataset K) : List String :=
  ds.vars.map (fun a => a.name)

/-- Python `int(x)` on a (rational-valued) number: truncation toward zero. -/
def pyInt (q : ℚ) : ℤ := if 0 ≤ q then ⌊q⌋ else ⌈q⌉

/-- Python `str(x)` for the numbers appearing here; integers print as their
decimal digits (the only case exercised by the format strings below). -/
def numStr (q : ℚ) : String :=
  if q.den = 1 then toString q.num else toString q.num ++ "/" ++ toString q.den

/-- `"wnd{h:0d}m".format(h=int(height))`. -/
def toVarName (height : ℚ) : String := "wnd" ++ toString (pyInt height) ++ "m"

/-- Python `s[3:-1]`: characters from index 3 up to (excluding) the last. -/
def slice3m1 (s : String) : String := String.mk ((s.toList.drop 3).dropLast)

/-- Python `s.startswith(pre)`. -/
def pyStartsWith (s pre : String) : Bool := pre.toList.isPrefixOf s.toList

/-- Digit run to a natural number. -/
def digitsToNat (cs : List Char) : ℕ :=
  cs.foldl (fun n c => 10 * n + (c.toNat - '0'.toNat)) 0

/-- Python `int(s)`: an optional sign followed by a nonempty digit run;
anything else raises `ValueError`. -/
def pyParseInt (s : String) : Except PyError ℤ :=
  let cs := s.toList
  let signDigits : ℤ × List Char :=
    match cs with
    | '-' :: rest => (-1, rest)
    | '+' :: rest => (1, rest)
    | _ => (1, cs)
  if signDigits.2 ≠ [] ∧ signDigits.2.all Char.isDigit then
    .ok (signDigits.1 * (digitsToNat signDigits.2 : ℤ))
  else
    .error (.valueError ("invalid literal for int() with base 10: '" ++ s ++ "'"))

/-- A Python list comprehension over fallible element computations: the
first failing element raises; otherwise the list of results is produced. -/
def exceptMapList {α β : Type} (f : α → Except PyError β) : List α → Except PyError (List β)
  | [] => .ok []
  | x :: xs =>
    match f x with
    | .error e => .error e
    | .ok y =>
      match exceptMapList f xs with
      | .error e => .error e
      | .ok ys => .ok (y :: ys)

/-- `heights = np.asarray([int(s[3:-1]) for s in ds if s.startswith("wnd")])`. -/
def windHeights {K : Type} (ds : Dataset K) : Except PyError (List ℤ) :=
  exceptMapList (fun s => pyParseInt (slice3m1 s))
    (ds.names.filter (fun s => pyStartsWith s "wnd"))

/-- `heights[np.argmin(np.abs(heights - to_height))]` on the nonempty list
`h :: rest`: first element attaining the minimal absolute difference. -/
def closestHeight (to_height : ℚ) (h : ℤ) (rest : List ℤ) : ℤ :=
  rest.foldl
    (fun (best x : ℤ) =>
      if |(x : ℚ) - to_height| < |(best : ℚ) - to_height| then x else best) h

/-- The `from_height is None` block: scan the dataset for wind heights,
raise `AssertionError` when none exist, otherwise take the closest. -/
def resolveFromHeight {K : Type} (ds : Dataset K) (to_height : ℚ) :
    Option ℚ → Except PyError ℚ
  | some fh => .ok fh
  | none =>
    match windHeights ds with
    | .error e => .error e
    | .ok [] => .error (.assertionError "Wind speed is not in dataset")
    | .ok (h :: rest) => .ok ((closestHeight to_height h rest : ℤ) : ℚ)

/-- `dict.update`: replace the value of an existing key in place, append a
missing key at the end. -/
def updateKey (attrs : List (String × String)) (k v : String) : List (String × String) :=
  if attrs.any (fun p => p.1 == k) then
    attrs.map (fun p => if p.1 == k then (k, v) else p)
  else
    attrs ++ [(k, v)]

/-- `attrs.update({...})` applied key by key in order. -/
def attrsUpdate (attrs : List (String × String)) (kvs : List (String × String)) :
    List (String × String) :=
  kvs.foldl (fun a kv => updateKey a kv.1 kv.2) attrs

/-- The `long name` format string of the source. -/
def longName (ht hf : ℚ) : String :=
  "extrapolated " ++ numStr ht ++ " m wind speed using logarithmic "
    ++ "method with roughness and " ++ numStr hf ++ " m wind speed"

/-- The extrapolation formula, metadata attachment and rename:
`wnd_spd = ds[from_name] * (np.log(to_height/ds['roughness']) / np.log(from_height/ds['roughness']))`;
xarray binary arithmetic drops `attrs` (default `keep_attrs=False`), so the
subsequent `attrs.update` starts from the empty dictionary; finally
`wnd_spd.rename(to_name)` sets the result's name. -/
def mkExtrapolated {K : Type} [Field K] (log : K → K) (to_height fh : ℚ)
    (wArr rArr : DataArray K) : DataArray K :=
  { name := toVarName to_height
    data := VarData.broadcast2 (· * ·) wArr.data
        (VarData.broadcast2 (· / ·)
          ((rArr.data.map (fun x => (to_height : K) / x)).map log)
          ((rArr.data.map (fun x => (fh : K) / x)).map log))
    attrs := attrsUpdate []
        [("long name", longName to_height fh), ("units", "m s**-1")] }

/-- The tail of the function once `from_height` is known: look up the source
wind speeds (first) and `roughness` (second), then build the result. -/
def extrapolateAt {K : Type} [Field K] (log : K → K) (ds : Dataset K)
    (to_height fh : ℚ) : Except PyError (DataArray K) :=
  let from_name := toVarName fh
  match ds.find? from_name with
  | none => .error (.keyError from_name)
  | some wArr =>
    match ds.find? "roughness" with
    | none => .error (.keyError "roughness")
    | some rArr => .ok (mkExtrapolated log to_height fh wArr rArr)

/-- `extrapolate_wind_speed(ds, to_height, from_height=None)` from
`atlite/wind.py`: fast lane on `wnd{int(to_height)}m`, optional closest-height
selection, then the logarithmic-law extrapolation. -/
def extrapolate_wind_speed {K : Type} [Field K] (log : K → K) (ds : Dataset K)
    (to_height : ℚ) (from_height : Option ℚ := none) : Except PyError (DataArray K) :=
  match ds.find? (toVarName to_height) with
  | some da => .ok da
  | none =>
    match resolveFromHeight ds to_height from_height with
    | .error e => .error e
    | .ok fh => extrapolateAt log ds to_height fh

/-- Whether a call returned normally (no exception). -/
def resultOk {K : Type} : Except PyError (DataArray K) → Bool
  | .ok _ => true
  | .error _ => false

/-- Whether a call raised the spec's `MissingDataError`. -/
def raisesMissingData {K : Type} : Except PyError (DataArray K) → Bool
  | .error e => e.isMissingData
  | .ok _ => false

/-- The value of a successful call's array at grid point `(t, p)`. -/
def resultDataAt {K : Type} (r : Except PyError (DataArray K)) (t p : ℕ) : Option K :=
  match r with
  | .ok a => some (a.data.valueAt t p)
  | .error _ => none

/-- A sample wind-speed field (values are irrelevant to the control flow). -/
def sampleWind : ℕ → ℕ → ℚ := fun t p => (t : ℚ) + (p : ℚ) / 2

/-- A sample roughness field. -/
def sampleRough : ℕ → ℚ := fun p => (p : ℚ) + 1 / 10

/-- A dataset holding `wnd10m`, `wnd50m` and `roughness`. -/
def dsTwoHeights : Dataset ℚ :=
  ⟨[⟨"wnd10m", .timePos sampleWind, []⟩,
    ⟨"wnd50m", .timePos (fun t p => sampleWind t p * 2), [("units", "m s**-1")]⟩,
    ⟨"roughness", .pos sampleRough, []⟩]⟩

/-- A dataset holding only `wnd10m` and `roughness` (the source array carries
an unrelated attribute, which xarray arithmetic drops). -/
def dsFormula : Dataset ℚ :=
  ⟨[⟨"wnd10m", .timePos sampleWind, [("note", "observed")]⟩,
    ⟨"roughness", .pos sampleRough, []⟩]⟩

/-- A dataset whose stored `wnd50m` has an empty attribute dictionary. -/
def dsBareWind : Dataset ℚ :=
  ⟨[⟨"wnd50m", .timePos sampleWind, []⟩,
    ⟨"roughness", .pos sampleRough, []⟩]⟩

/-- A dataset with no variable whose name starts with `wnd`. -/
def dsNoWind : Dataset ℚ :=
  ⟨[⟨"roughness", .pos sampleRough, []⟩,
    ⟨"temperature", .timePos sampleWind, []⟩]⟩

/-- A dataset holding `wnd10m` but no `roughness`. -/
def dsNoRough : Dataset ℚ :=
  ⟨[⟨"wnd10m", .timePos sampleWind, []⟩]⟩

/-- A dataset containing a `wnd`-prefixed variable that is not of the form
`wnd<digits>m`. -/
def dsGust : Dataset ℚ :=
  ⟨[⟨"wnd_gust", .timePos sampleWind, []⟩,
    ⟨"wnd10m", .timePos sampleWind, []⟩,
    ⟨"roughness", .pos sampleRough, []⟩]⟩

/-- A real-valued dataset with identically zero roughness (degenerate). -/
def degWind : ℕ → ℕ → ℝ := fun _ _ => 5

/-- The zero roughness field. -/
def degRough : ℕ → ℝ := fun _ => 0

/-- A dataset over `ℝ` whose roughness is zero everywhere. -/
def dsDegenerate : Dataset ℝ :=
  ⟨[⟨"wnd10m", .timePos degWind, []⟩,
    ⟨"roughness", .pos degRough, []⟩]⟩

/-- A found array carries the looked-up name. -/
theorem Dataset.find?_name {K : Type} {ds : Dataset K} {n : String} {a : DataArray K}
    (h : ds.find? n = some a) : a.name = n := by
  have := List.find?_some h
  simpa using this

/-- The comprehension fails only on a parse failure of a member. -/
theorem exceptMapList_error_shape {α β : Type} (f : α → Except PyError β)
    (l : List α) (e : PyError) (h : exceptMapList f l = .error e) :
    ∃ x ∈ l, f x = .error e := by
  induction l with
  | nil => simp [exceptMapList] at h
  | cons y ys ih =>
    unfold exceptMapList at h
    cases hy : f y with
    | error e' =>
      rw [hy] at h
      injection h with h
      exact ⟨y, List.mem_cons_self _ _, by rw [hy, h]⟩
    | ok v =>
      rw [hy] at h
      cases hys : exceptMapList f ys with
      | error e' =>
        rw [hys] at h
        injection h with h
        obtain ⟨x, hx, hfx⟩ := ih (by rw [hys, h])
        exact ⟨x, List.mem_cons_of_mem _ hx, hfx⟩
      | ok vs => rw [hys] at h; cases h

/-- A failing member makes the comprehension fail. -/
theorem exceptMapList_mem_error {α β : Type} (f : α → Except PyError β)
    (l : List α) (x : α) (hx : x ∈ l) (e : PyError) (hfx : f x = .error e) :
    ∃ e', exceptMapList f l = .error e' := by
  induction l with
  | nil => cases hx
  | cons y ys ih =>
    cases hy : f y with
    | error e'' => exact ⟨e'', by unfold exceptMapList; rw [hy]⟩
    | ok v =>
      rcases List.mem_cons.mp hx with rfl | hx'
      · rw [hfx] at hy; cases hy
      · obtain ⟨e', he'⟩ := ih hx'
        exact ⟨e', by unfold exceptMapList; rw [hy, he']⟩

/-- All parse failures are `ValueError`s. -/
theorem pyParseInt_error_shape (s : String) (e : PyError)
    (h : pyParseInt s = .error e) : ∃ msg, e = .valueError msg := by
  simp only [pyParseInt] at h
  split at h
  · cases h
  · injection h with h
    exact ⟨_, h.symm⟩

/-- The reduction step of the closest-height fold. -/
theorem closestHeight_cons (t : ℚ) (h x : ℤ) (rest : List ℤ) :
    closestHeight t h (x :: rest) =
      closestHeight t (if |(x : ℚ) - t| < |(h : ℚ) - t| then x else h) rest := rfl

/-- The selected height is one of the scanned heights. -/
theorem closestHeight_mem (t : ℚ) (h : ℤ) (rest : List ℤ) :
    closestHeight t h rest ∈ h :: rest := by
  induction rest generalizing h with
  | nil => simp [closestHeight]
  | cons x xs ih =>
    rw [closestHeight_cons]
    have hx := ih (if |(x : ℚ) - t| < |(h : ℚ) - t| then x else h)
    rcases List.mem_cons.mp hx with h1 | h1
    · rw [h1]
      split
      · exact List.mem_cons_of_mem _ (List.mem_cons_self _ _)
      · exact List.mem_cons_self _ _
    · exact List.mem_cons_of_mem _ (List.mem_cons_of_mem _ h1)

/-- The selected height minimizes the absolute difference to the target. -/
theorem closestHeight_min (t : ℚ) (h : ℤ) (rest : List ℤ) :
    ∀ y ∈ h :: rest, |(closestHeight t h rest : ℚ) - t| ≤ |(y : ℚ) - t| := by
  induction rest generalizing h with
  | nil =>
    intro y hy
    rcases List.mem_cons.mp hy with rfl | hy'
    · exact le_refl _
    · cases hy'
  | cons x xs ih =>
    intro y hy
    rw [closestHeight_cons]
    by_cases hcmp : |(x : ℚ) - t| < |(h : ℚ) - t|
    · rw [if_pos hcmp]
      rcases List.mem_cons.mp hy with hyh | hy'
      · rw [hyh]
        exact le_trans (ih x x (List.mem_cons_self _ _)) (le_of_lt hcmp)
      · rcases List.mem_cons.mp hy' with hyx | hy''
        · rw [hyx]
          exact ih x x (List.mem_cons_self _ _)
        · exact ih x y (List.mem_cons_of_mem _ hy'')
    · rw [if_neg hcmp]
      rcases List.mem_cons.mp hy with hyh | hy'
      · rw [hyh]
        exact ih h h (List.mem_cons_self _ _)
      · rcases List.mem_cons.mp hy' with hyx | hy''
        · rw [hyx]
          exact le_trans (ih h h (List.mem_cons_self _ _)) (le_of_not_lt hcmp)
        · exact ih h y (List.mem_cons_of_mem _ hy'')

/-- Claim C1: when the target variable is absent and the source wind speeds
(a time × position field `f`) and `roughness` (a position field `g`) are
present, the result holds, at every grid point `(t, p)`, the value
`f t p * log(to_height / g p) / log(from_height / g p)`, with `roughness`
broadcast across the time dimension it lacks. -/
theorem extrapolation_formula {K : Type} [Field K] (log : K → K) (ds : Dataset K)
    (to_height fh : ℚ) (wArr rArr : DataArray K) (f : ℕ → ℕ → K) (g : ℕ → K)
    (hto : ds.find? (toVarName to_height) = none)
    (hw : ds.find? (toVarName fh) = some wArr) (hwd : wArr.data = .timePos f)
    (hr : ds.find? "roughness" = some rArr) (hrd : rArr.data = .pos g) :
    extrapolate_wind_speed log ds to_height (some fh) =
      .ok { name := toVarName to_height,
            data := .timePos (fun t p =>
              f t p * (log ((to_height : K) / g p) / log ((fh : K) / g p))),
            attrs := [("long name", longName to_height fh), ("units", "m s**-1")] } := by
  unfold extrapolate_wind_speed
  rw [hto]
  show extrapolateAt log ds to_height fh = _
  simp only [extrapolateAt]
  rw [hw, hr]
  simp only [mkExtrapolated]
  rw [hwd, hrd]
  rfl

/-- Claim C1 witness: the formula theorem applied at `to_height = 50`,
`from_height = 10` over `ℚ` with `log := id`. -/
theorem extrapolation_formula_witness :
    extrapolate_wind_speed (K := ℚ) id dsFormula 50 (some 10) =
      .ok { name := toVarName 50,
            data := .timePos (fun t p =>
              sampleWind t p *
                (id (((50 : ℚ) : ℚ) / sampleRough p) / id (((10 : ℚ) : ℚ) / sampleRough p))),
            attrs := [("long name", longName 50 10), ("units", "m s**-1")] } :=
  extrapolation_formula id dsFormula 50 10 _ _ sampleWind sampleRough rfl rfl rfl rfl rfl

/-- Claim C2: if `wnd{int(to_height)}m` is already present, the stored array
is returned unchanged, whatever `from_height` is. -/
theorem fast_path_returns_stored {K : Type} [Field K] (log : K → K)
    (ds : Dataset K) (to_height : ℚ) (fh? : Option ℚ) (a : DataArray K)
    (h : ds.find? (toVarName to_height) = some a) :
    extrapolate_wind_speed log ds to_height fh? = .ok a := by
  unfold extrapolate_wind_speed
  rw [h]

/-- Claim C2 witness: requesting `to_height = 50` on `dsTwoHeights` returns
the stored `wnd50m` array even though `from_height = 10` was passed. -/
theorem fast_path_returns_stored_witness :
    extrapolate_wind_speed (K := ℚ) id dsTwoHeights 50 (some 10) =
      .ok ⟨"wnd50m", .timePos (fun t p => sampleWind t p * 2), [("units", "m s**-1")]⟩ :=
  fast_path_returns_stored id dsTwoHeights 50 (some 10) _ rfl

/-- Claim C3: with `from_height` omitted and the target absent, the call
selects a scanned height minimizing the absolute difference to `to_height`,
and behaves exactly as if that height had been passed explicitly. -/
theorem closest_height_selection {K : Type} [Field K] (log : K → K)
    (ds : Dataset K) (to_height : ℚ) (h : ℤ) (rest : List ℤ)
    (hto : ds.find? (toVarName to_height) = none)
    (hscan : windHeights ds = .ok (h :: rest)) :
    closestHeight to_height h rest ∈ h :: rest ∧
    (∀ y ∈ h :: rest,
      |(closestHeight to_height h rest : ℚ) - to_height| ≤ |(y : ℚ) - to_height|) ∧
    extrapolate_wind_speed log ds to_height none =
      extrapolate_wind_speed log ds to_height
        (some ((closestHeight to_height h rest : ℤ) : ℚ)) := by
  refine ⟨closestHeight_mem _ _ _, closestHeight_min _ _ _, ?_⟩
  have h1 : resolveFromHeight ds to_height none =
      .ok ((closestHeight to_height h rest : ℤ) : ℚ) := by
    unfold resolveFromHeight
    rw [hscan]
  unfold extrapolate_wind_speed
  rw [hto, h1]
  rfl

/-- Claim C3 witness: on `dsTwoHeights` (variables `wnd10m`, `wnd50m`) with
`to_height = 40` and no `from_height`, the selected height is `50`
(|40-50| = 10 < |40-10| = 30) and the call equals the explicit one. -/
theorem closest_height_selection_witness :
    closestHeight 40 10 [50] = 50 ∧
    |(closestHeight 40 10 [50] : ℚ) - 40| ≤ |((10 : ℤ) : ℚ) - 40| ∧
    extrapolate_wind_speed (K := ℚ) id dsTwoHeights 40 none =
      extrapolate_wind_speed (K := ℚ) id dsTwoHeights 40
        (some ((closestHeight 40 10 [50] : ℤ) : ℚ)) := by
  obtain ⟨hmem, hmin, heq⟩ :=
    closest_height_selection (K := ℚ) id dsTwoHeights 40 10 [50] rfl rfl
  refine ⟨?_, hmin 10 (List.mem_cons_self _ _), heq⟩
  simp only [closestHeight, List.foldl]
  norm_num

/-- Claim C4 counterexample: on a dataset with no `wnd`-prefixed variable
the call raises `AssertionError("Wind speed is not in dataset")`, which is
not the `MissingDataError` named by the specification. -/
theorem missing_wind_not_missingDataError :
    extrapolate_wind_speed (K := ℚ) id dsNoWind 40 none =
      .error (.assertionError "Wind speed is not in dataset") ∧
    raisesMissingData (extrapolate_wind_speed (K := ℚ) id dsNoWind 40 none) = false :=
  ⟨rfl, rfl⟩

/-- Claim C4 (amended): if no variable name starts with `wnd` and the target
variable is absent, the call with `from_height` omitted fails with
`AssertionError("Wind speed is not in dataset")`. -/
theorem no_wind_assertion_error {K : Type} [Field K] (log : K → K)
    (ds : Dataset K) (to_height : ℚ)
    (hto : ds.find? (toVarName to_height) = none)
    (hno : ∀ s ∈ ds.names, ¬ pyStartsWith s "wnd") :
    extrapolate_wind_speed log ds to_height none =
      .error (.assertionError "Wind speed is not in dataset") := by
  have hfilter : ds.names.filter (fun s => pyStartsWith s "wnd") = [] :=
    List.filter_eq_nil_iff.mpr hno
  have hscan : windHeights ds = .ok [] := by
    unfold windHeights
    rw [hfilter]
    rfl
  have h1 : resolveFromHeight ds to_height none =
      .error (.assertionError "Wind speed is not in dataset") := by
    unfold resolveFromHeight
    rw [hscan]
  unfold extrapolate_wind_speed
  rw [hto, h1]

/-- Claim C4 witness: the amended claim applied to `dsNoWind` (variables
`roughness` and `temperature` only) at `to_height = 40`. -/
theorem no_wind_assertion_error_witness :
    extrapolate_wind_speed (K := ℚ) id dsNoWind 40 none =
      .error (.assertionError "Wind speed is not in dataset") :=
  no_wind_assertion_error id dsNoWind 40 rfl (by decide)

/-- Claim C6: every successful call returns an array named
`wnd{int(to_height)}m`, on the fast path (the stored array is keyed by that
name) as well as after extrapolation (the `rename` call). -/
theorem result_name_is_target {K : Type} [Field K] (log : K → K)
    (ds : Dataset K) (to_height : ℚ) (fh? : Option ℚ) (a : DataArray K)
    (hok : extrapolate_wind_speed log ds to_height fh? = .ok a) :
    a.name = toVarName to_height := by
  unfold extrapolate_wind_speed at hok
  split at hok
  · rename_i da hda
    injection hok with hh
    rw [← hh]
    exact Dataset.find?_name hda
  · rename_i hto
    split at hok
    · exact absurd hok (by simp)
    · rename_i fh hres
      simp only [extrapolateAt] at hok
      split at hok
      · exact absurd hok (by simp)
      · rename_i wArr hw
        split at hok
        · exact absurd hok (by simp)
        · rename_i rArr hr
          injection hok with hh
          rw [← hh]
          rfl

/-- Claim C6 witness: the naming theorem applied to the extrapolating call
on `dsFormula` with `to_height = 50`, `from_height = 10`. -/
theorem result_name_is_target_witness :
    (mkExtrapolated (K := ℚ) id 50 10
        ⟨"wnd10m", .timePos sampleWind, [("note", "observed")]⟩
        ⟨"roughness", .pos sampleRough, []⟩).name = toVarName 50 :=
  result_name_is_target id dsFormula 50 (some 10) _ rfl

/-- Claim C5 counterexample: a call that returns via the fast path hands
back the stored array's attribute dictionary unchanged — here empty, so the
result carries no `units` attribute at all. -/
theorem fast_path_carries_no_units :
    (extrapolate_wind_speed (K := ℚ) id dsBareWind 50 (some 10)).map
        (fun a => a.attrs) = .ok [] ∧
    (extrapolate_wind_speed (K := ℚ) id dsBareWind 50 (some 10)).map
        (fun a => a.attrs.lookup "units") = .ok none :=
  ⟨rfl, rfl⟩

/-- Claim C5 (amended): every successful call that does **not** return via
the fast path (the target variable is absent) carries
`units = "m s**-1"` and a `long name` built from `to_height` and the used
`from_height`. -/
theorem metadata_on_extrapolation {K : Type} [Field K] (log : K → K)
    (ds : Dataset K) (to_height : ℚ) (fh? : Option ℚ) (a : DataArray K)
    (hto : ds.find? (toVarName to_height) = none)
    (hok : extrapolate_wind_speed log ds to_height fh? = .ok a) :
    a.attrs.lookup "units" = some "m s**-1" ∧
    ∃ fh : ℚ, a.attrs.lookup "long name" = some (longName to_height fh) := by
  unfold extrapolate_wind_speed at hok
  split at hok
  · rename_i da hda
    rw [hto] at hda
    cases hda
  · split at hok
    · exact absurd hok (by simp)
    · rename_i fh hres
      simp only [extrapolateAt] at hok
      split at hok
      · exact absurd hok (by simp)
      · rename_i wArr hw
        split at hok
        · exact absurd hok (by simp)
        · rename_i rArr hr
          injection hok with hh
          rw [← hh]
          exact ⟨rfl, fh, rfl⟩

/-- Claim C5 witness: the amended claim applied to the extrapolating call on
`dsFormula` with `to_height = 50`, `from_height = 10`. -/
theorem metadata_on_extrapolation_witness :
    (mkExtrapolated (K := ℚ) id 50 10
        ⟨"wnd10m", .timePos sampleWind, [("note", "observed")]⟩
        ⟨"roughness", .pos sampleRough, []⟩).attrs.lookup "units" = some "m s**-1" ∧
    (mkExtrapolated (K := ℚ) id 50 10
        ⟨"wnd10m", .timePos sampleWind, [("note", "observed")]⟩
        ⟨"roughness", .pos sampleRough, []⟩).attrs.lookup "long name" =
      some (longName 50 10) :=
  ⟨(metadata_on_extrapolation id dsFormula 50 (some 10)
      (mkExtrapolated id 50 10
        ⟨"wnd10m", .timePos sampleWind, [("note", "observed")]⟩
        ⟨"roughness", .pos sampleRough, []⟩) rfl rfl).1,
   rfl⟩

/-- When the target is absent and both lookups succeed, the call returns
exactly the constructed extrapolation array. -/
theorem extrapolate_eq_mk {K : Type} [Field K] (log : K → K) (ds : Dataset K)
    (to_height fh : ℚ) (wArr rArr : DataArray K)
    (hto : ds.find? (toVarName to_height) = none)
    (hw : ds.find? (toVarName fh) = some wArr)
    (hr : ds.find? "roughness" = some rArr) :
    extrapolate_wind_speed log ds to_height (some fh) =
      .ok (mkExtrapolated log to_height fh wArr rArr) := by
  unfold extrapolate_wind_speed
  rw [hto]
  show extrapolateAt log ds to_height fh = _
  simp only [extrapolateAt]
  rw [hw, hr]

/-- Claim C7: with the source variable and `roughness` present, the call
returns normally for arbitrary roughness values — including degenerate ones
(somewhere nonpositive, or equal to one of the heights) — and whatever the
total `log`/division operations produce at such points appears element-wise
in the result. -/
theorem degeneracies_propagate (ds : Dataset ℝ) (to_height fh : ℚ)
    (wArr rArr : DataArray ℝ) (f : ℕ → ℕ → ℝ) (g : ℕ → ℝ)
    (hto : ds.find? (toVarName to_height) = none)
    (hw : ds.find? (toVarName fh) = some wArr) (hwd : wArr.data = .timePos f)
    (hr : ds.find? "roughness" = some rArr) (hrd : rArr.data = .pos g)
    (hdeg : ∃ p, g p ≤ 0 ∨ g p = (to_height : ℝ) ∨ g p = (fh : ℝ)) :
    resultOk (extrapolate_wind_speed Real.log ds to_height (some fh)) = true ∧
    ∀ t p, resultDataAt (extrapolate_wind_speed Real.log ds to_height (some fh)) t p =
      some (f t p * (Real.log ((to_height : ℝ) / g p) / Real.log ((fh : ℝ) / g p))) := by
  rw [extrapolate_eq_mk Real.log ds to_height fh wArr rArr hto hw hr]
  refine ⟨rfl, fun t p => ?_⟩
  simp only [resultDataAt, mkExtrapolated]
  rw [hwd, hrd]
  rfl

/-- Claim C7 witness: on `dsDegenerate` (roughness identically zero) the
call with `to_height = 50`, `from_height = 10` returns normally, and the
value at grid point (0,0) is the element-wise junk value. -/
theorem degeneracies_propagate_witness :
    resultOk (extrapolate_wind_speed Real.log dsDegenerate 50 (some 10)) = true ∧
    resultDataAt (extrapolate_wind_speed Real.log dsDegenerate 50 (some 10)) 0 0 =
      some (degWind 0 0 *
        (Real.log (((50 : ℚ) : ℝ) / degRough 0) / Real.log (((10 : ℚ) : ℝ) / degRough 0))) := by
  obtain ⟨h1, h2⟩ := degeneracies_propagate dsDegenerate 50 10 _ _ degWind degRough
    rfl rfl rfl rfl rfl ⟨0, Or.inl le_rfl⟩
  exact ⟨h1, h2 0 0⟩

/-- Claim C8: when the target is absent and `from_height` is supplied
explicitly, a missing `wnd{int(from_height)}m` raises `KeyError` on that
name; when it is present but `roughness` is missing, `KeyError "roughness"`
is raised (in the source's evaluation order). -/
theorem lookup_errors {K : Type} [Field K] (log : K → K) (ds : Dataset K)
    (to_height fh : ℚ)
    (hto : ds.find? (toVarName to_height) = none) :
    (ds.find? (toVarName fh) = none →
      extrapolate_wind_speed log ds to_height (some fh) =
        .error (.keyError (toVarName fh))) ∧
    (∀ wArr, ds.find? (toVarName fh) = some wArr →
      ds.find? "roughness" = none →
      extrapolate_wind_speed log ds to_height (some fh) =
        .error (.keyError "roughness")) := by
  constructor
  · intro hw
    unfold extrapolate_wind_speed
    rw [hto]
    show extrapolateAt log ds to_height fh = _
    simp only [extrapolateAt]
    rw [hw]
  · intro wArr hw hr
    unfold extrapolate_wind_speed
    rw [hto]
    show extrapolateAt log ds to_height fh = _
    simp only [extrapolateAt]
    rw [hw, hr]

/-- Claim C8 witness: on `dsNoRough` (only `wnd10m`), requesting
`from_height = 99` raises `KeyError` on `wnd99m`, and requesting
`from_height = 10` raises `KeyError` on the absent `roughness`. -/
theorem lookup_errors_witness :
    extrapolate_wind_speed (K := ℚ) id dsNoRough 50 (some 99) =
      .error (.keyError (toVarName 99)) ∧
    extrapolate_wind_speed (K := ℚ) id dsNoRough 50 (some 10) =
      .error (.keyError "roughness") :=
  ⟨(lookup_errors id dsNoRough 50 99 rfl).1 rfl,
   (lookup_errors id dsNoRough 50 10 rfl).2 ⟨"wnd10m", .timePos sampleWind, []⟩ rfl rfl⟩

/-- Claim C10: the height scan treats every name starting with `wnd` as a
candidate and parses the slice between index 3 and the last character: a
member whose slice fails integer parsing makes the omitted-`from_height`
call raise `ValueError` (rather than being ignored), while the slice of
`"wnd10"` parses "silently" as the height 1. -/
theorem wnd_scan_parse_behavior {K : Type} [Field K] (log : K → K)
    (ds : Dataset K) (to_height : ℚ) (s : String) (e₀ : PyError)
    (hto : ds.find? (toVarName to_height) = none)
    (hmem : s ∈ ds.names) (hpre : pyStartsWith s "wnd" = true)
    (hbad : pyParseInt (slice3m1 s) = .error e₀) :
    (∃ msg, extrapolate_wind_speed log ds to_height none =
      .error (.valueError msg)) ∧
    pyParseInt (slice3m1 "wnd10") = .ok 1 := by
  refine ⟨?_, rfl⟩
  have hsf : s ∈ ds.names.filter (fun s => pyStartsWith s "wnd") :=
    List.mem_filter.mpr ⟨hmem, hpre⟩
  obtain ⟨e', he'⟩ :=
    exceptMapList_mem_error (fun s => pyParseInt (slice3m1 s)) _ s hsf e₀ hbad
  have hwh : windHeights ds = .error e' := he'
  obtain ⟨x, hx, hfx⟩ := exceptMapList_error_shape _ _ _ he'
  obtain ⟨msg, rfl⟩ := pyParseInt_error_shape _ _ hfx
  refine ⟨msg, ?_⟩
  have h1 : resolveFromHeight ds to_height none = .error (.valueError msg) := by
    unfold resolveFromHeight
    rw [hwh]
  unfold extrapolate_wind_speed
  rw [hto, h1]

/-- Claim C10 witness: on `dsGust` (containing `wnd_gust`), the call with
`to_height = 40` and no `from_height` raises the `ValueError` produced by
`int("_gus")`, and the slice of `"wnd10"` parses as 1. -/
theorem wnd_scan_parse_behavior_witness :
    extrapolate_wind_speed (K := ℚ) id dsGust 40 none =
      .error (.valueError "invalid literal for int() with base 10: '_gus'") ∧
    pyParseInt (slice3m1 "wnd10") = .ok 1 := by
  have h := wnd_scan_parse_behavior (K := ℚ) id dsGust 40 "wnd_gust"
    (.valueError "invalid literal for int() with base 10: '_gus'")
    rfl (by decide) rfl rfl
  exact ⟨rfl, h.2⟩
